import Mathlib

/-!
Verification of the Pod BLE session/protocol engine
(`src/windows/pod_ble_core.cpp`, class `PodBLECore`).

The engine is shallowly embedded: the mutable members of `PodBLECore` that
the protocol logic reads and writes become the record `CoreState`; every
side effect visible at the public interface (payload callback invocations,
command writes, watchdog start/stop, status strings) becomes an `Effect`
value, and each C++ member function becomes a Lean function
`CoreState → ... → CoreState × List Effect`.  C++ `int` / `int64_t`
values are modelled as `Int` (with explicit `% 2^32` / sign conversion
where the code narrows), `uint8_t` bytes as `Nat` masked by `% 256` where
the code stores into a byte-sized location, and byte vectors as `List Nat`.
Detached delayed tasks (the 50 ms finish settle, the 600 ms cancel skip)
are modelled by emitting their effect at the point where the code schedules
them, with the delay recorded in the effect; wall-clock time itself is a
parameter (`elapsedMs`) where the code measures it.
-/

namespace PodBLE

/-- Observable side effects of the engine, in program order.
`payload` is a call of the payload callback; `delayedPayload d b` is a
payload callback invocation scheduled to run `d` milliseconds later by a
detached task; `writeCommand` is a write to the command characteristic;
`selfJoinTerminate` is the fatal outcome of a thread joining itself:
`std::thread::join` throws `std::system_error`
(`resource_deadlock_would_occur`), nothing catches it, and the process
terminates — no later statement of the calling function runs. -/
inductive Effect where
  | payload (data : List Nat)
  | delayedPayload (delayMs : Nat) (data : List Nat)
  | writeCommand (data : List Nat)
  | stopWatchdog
  | startWatchdog
  | status (text : String)
  | selfJoinTerminate
  deriving Repr, DecidableEq

/-- The mutable download/reassembly state of `PodBLECore`
(members `received_packet_count_` … `is_smart_peek_done_`). -/
structure CoreState where
  received_packet_count : Int
  total_expected_packets : Int
  actual_packet_size : Int
  current_message_type : Nat
  payload_buffer : List Nat
  filter_start : Int
  filter_end : Int
  is_filtering : Bool
  is_smart_peek_done : Bool
  deriving Repr, DecidableEq

/-- The state of a freshly constructed `PodBLECore` (all members value-initialised). -/
def initState : CoreState :=
  { received_packet_count := 0
    total_expected_packets := 0
    actual_packet_size := 0
    current_message_type := 0
    payload_buffer := []
    filter_start := 0
    filter_end := 0
    is_filtering := false
    is_smart_peek_done := false }

/-- Model of `PodBLECore::ResetDownloadState`: clears the reassembly counters, the
inferred packet size, the smart-peek flag and the payload buffer.  The
filter members are not touched by the source function. -/
def ResetDownloadState (s : CoreState) : CoreState :=
  { s with received_packet_count := 0
           total_expected_packets := 0
           actual_packet_size := 0
           is_smart_peek_done := false
           payload_buffer := [] }

/-- Model of `PodBLECore::FinishMessage`: stops the watchdog, hands the accumulated
buffer to the payload callback, then zeroes the counters and clears the
buffer. -/
def FinishMessage (s : CoreState) : CoreState × List Effect :=
  ({ s with received_packet_count := 0
            total_expected_packets := 0
            payload_buffer := [] },
   [Effect.stopWatchdog, Effect.payload s.payload_buffer])

/-- Model of `PodBLECore::CancelDownload`: stops the watchdog, writes the
single-byte reset command `0x08`, resets the download state, and spawns a
detached task that delivers the synthetic skip payload `{0xDA}` 600 ms
later. -/
def CancelDownload (s : CoreState) : CoreState × List Effect :=
  (ResetDownloadState s,
   [Effect.stopWatchdog, Effect.writeCommand [0x08],
    Effect.delayedPayload 600 [0xDA]])

/-- Model of `PodBLECore::Disconnect`: stops the watchdog, releases the device
handles (external resources, not part of `CoreState`), resets the
download state and reports disconnection. -/
def Disconnect (s : CoreState) : CoreState × List Effect :=
  (ResetDownloadState s, [Effect.stopWatchdog, Effect.status "Disconnected"])

/-- Byte 5–8 little-endian header field of a first fragment, narrowed to a
C++ `int` exactly as `static_cast<int>(packet[5] | (packet[6] << 8) |
(packet[7] << 16) | (packet[8] << 24))` does: the 32-bit pattern is
reinterpreted as a signed two-complement value. -/
def parseExpected (packet : List Nat) : Int :=
  let u : Nat := (packet.getD 5 0 ||| (packet.getD 6 0 <<< 8) |||
            (packet.getD 7 0 <<< 16) ||| (packet.getD 8 0 <<< 24)) % 2 ^ 32
  if u < 2 ^ 31 then (u : Int) else (u : Int) - 2 ^ 32

/-- First statement of `ProcessPacket` after the minimum-size check:
record the size of the very first fragment seen in the session. -/
def setPacketSize (s : CoreState) (packet : List Nat) : CoreState :=
  if s.actual_packet_size = 0 then
    { s with actual_packet_size := (packet.length : Int) }
  else s

/-- The accumulation branch of `ProcessPacket`: a first fragment installs
the message type, the expected count and the initial buffer contents
(`message type byte` followed by bytes 9+); a later fragment appends
bytes 5+ and increments the received count.  (`payload_buffer_.reserve`
only affects capacity and is not modelled.) -/
def accumulate (s : CoreState) (packet : List Nat) : CoreState :=
  if s.received_packet_count = 0 then
    { s with current_message_type := packet.getD 0 0 % 256
             total_expected_packets := parseExpected packet
             payload_buffer := packet.getD 0 0 % 256 :: packet.drop 9
             received_packet_count := 1 }
  else
    { s with payload_buffer := s.payload_buffer ++ packet.drop 5
             received_packet_count := s.received_packet_count + 1 }

/-- Byte `i` of the accumulated payload buffer (`payload_buffer_[i]`,
always used under a length guard in the source). -/
def bufByte (s : CoreState) (i : Nat) : Nat := s.payload_buffer.getD i 0

/-- The recording start time `PerformSmartPeek` computes: the six-field
timestamp at buffer offsets 5–11 (16-bit little-endian year, then month,
day, hour, minute, second bytes) converted to epoch milliseconds.
`mktime` is modelled as the proleptic-Gregorian civil-calendar conversion
in UTC (via `daysFromCivil` below); the local-timezone offset the C
library may add is environmental and not modelled. -/
def daysFromCivil (y m d : Int) : Int :=
  let y2 := if m ≤ 2 then y - 1 else y
  let era := (if 0 ≤ y2 then y2 else y2 - 399).tdiv 400
  let yoe := y2 - era * 400
  let mp := (m + 9) % 12
  let doy := (153 * mp + 2).tdiv 5 + d - 1
  let doe := yoe * 365 + yoe.tdiv 4 - yoe.tdiv 100 + doy
  era * 146097 + doe - 719468

/-- Epoch milliseconds of a civil timestamp; the `* 1000` mirrors
`static_cast<int64_t>(mktime(&tm_val)) * 1000`. -/
def epochMs (y m d hh mm ss : Int) : Int :=
  (daysFromCivil y m d * 86400 + hh * 3600 + mm * 60 + ss) * 1000

/-- Start time extracted from the buffer by `PerformSmartPeek`
(the `% 2^16` / `% 256` masks mirror the `uint16_t` / `uint8_t`
destinations of the reads). -/
def smartPeekStartMs (s : CoreState) : Int :=
  let yr : Nat := (bufByte s 5 ||| (bufByte s 6 <<< 8)) % 2 ^ 16
  epochMs (yr : Int) ((bufByte s 7 % 256 : Nat) : Int)
    ((bufByte s 8 % 256 : Nat) : Int) ((bufByte s 9 % 256 : Nat) : Int)
    ((bufByte s 10 % 256 : Nat) : Int) ((bufByte s 11 % 256 : Nat) : Int)

/-- Model of `PodBLECore::SnapToStandardInterval`: fold over the ten standard
intervals keeping the first target of minimal absolute difference
(`std::abs`), starting from `closest = 1000`, `minDiff = INT64_MAX`. -/
def stdIntervals : List Int :=
  [100, 200, 300, 400, 500, 600, 700, 800, 900, 1000]

/-- The loop body: `d = std::abs(raw - t); if (d < minDiff) update`. -/
def snapStep (raw : Int) (p : Int × Int) (t : Int) : Int × Int :=
  if |raw - t| < p.2 then (t, |raw - t|) else p

def SnapToStandardInterval (raw : Int) : Int :=
  (stdIntervals.foldl (snapStep raw) ((1000 : Int), (2 ^ 63 - 1 : Int))).1

/-- The raw inter-sample interval: difference of the two `uint32_t`
little-endian counters at buffer offsets 1–4 and 65–68, computed in
32-bit modular arithmetic (`t2 - t1` on `uint32_t`), then widened to
`int64_t`. -/
def smartPeekRawInterval (s : CoreState) : Int :=
  let t1 : Nat := (bufByte s 1 ||| (bufByte s 2 <<< 8) |||
             (bufByte s 3 <<< 16) ||| (bufByte s 4 <<< 24)) % 2 ^ 32
  let t2 : Nat := (bufByte s 65 ||| (bufByte s 66 <<< 8) |||
             (bufByte s 67 <<< 16) ||| (bufByte s 68 <<< 24)) % 2 ^ 32
  ((((t2 + 2 ^ 32) - t1) % 2 ^ 32 : Nat) : Int)

/-- Estimated total duration in ms:
`(total_expected_packets_ * max(actual_packet_size_ - 5, 59) / 64) *
SnapToStandardInterval(t2 - t1)` — C++ `int64_t` division truncates
toward zero (`Int.tdiv`). -/
def smartPeekDuration (s : CoreState) : Int :=
  let ppp := max (s.actual_packet_size - 5) 59
  (s.total_expected_packets * ppp).tdiv 64 *
    SnapToStandardInterval (smartPeekRawInterval s)

/-- The cancellation test at the end of `PerformSmartPeek`:
`(filter_end_ > 0 && startTimeMs > filter_end_) ||
 (filter_start_ > 0 && (startTimeMs + dur) < filter_start_)`. -/
def smartPeekShouldCancel (s : CoreState) : Prop :=
  (0 < s.filter_end ∧ s.filter_end < smartPeekStartMs s) ∨
  (0 < s.filter_start ∧
    smartPeekStartMs s + smartPeekDuration s < s.filter_start)

instance (s : CoreState) : Decidable (smartPeekShouldCancel s) := by
  unfold smartPeekShouldCancel; infer_instance

/-- Model of `PodBLECore::PerformSmartPeek`: re-checks the 129-byte guard, and
calls `CancelDownload` when the estimated window misses the filter. -/
def PerformSmartPeek (s : CoreState) : CoreState × List Effect :=
  if s.payload_buffer.length < 129 then (s, [])
  else if smartPeekShouldCancel s then CancelDownload s
  else (s, [])

/-- The guarded smart peek inside `ProcessPacket`: runs only when
filtering is active, the message is a recording (type `0x03`), Smart
Peek has not run for this message, and at least 129 payload bytes have
accumulated; afterwards `is_smart_peek_done_` is set (also when the peek
cancelled and reset the state). -/
def smartPeekStep (s2 : CoreState) : CoreState × List Effect :=
  if s2.is_filtering = true ∧ s2.current_message_type = 3 ∧
     s2.is_smart_peek_done = false ∧ 129 ≤ s2.payload_buffer.length then
    ({ (PerformSmartPeek s2).1 with is_smart_peek_done := true },
     (PerformSmartPeek s2).2)
  else (s2, [])

/-- The completion check at the end of `ProcessPacket`: when a positive
expected count has been reached, `FinishMessage` runs (after a 50 ms
settling delay in the source, modelled as running it directly since the
fragment stream is quiescent at completion). -/
def completeStep (pk : CoreState × List Effect) : CoreState × List Effect :=
  if 0 < pk.1.total_expected_packets ∧
     pk.1.total_expected_packets ≤ pk.1.received_packet_count then
    ((FinishMessage pk.1).1, pk.2 ++ (FinishMessage pk.1).2)
  else pk

/-- Model of `PodBLECore::ProcessPacket`: minimum-size check, packet-size capture,
first-fragment header check, accumulation, guarded smart peek, and the
completion check. -/
def ProcessPacket (s0 : CoreState) (packet : List Nat) :
    CoreState × List Effect :=
  if packet.length < 5 then (s0, [])
  else if (setPacketSize s0 packet).received_packet_count = 0 ∧
          packet.length < 9 then
    (setPacketSize s0 packet, [])
  else completeStep (smartPeekStep (accumulate (setPacketSize s0 packet) packet))

/-- The `ValueChanged` notification handler installed by `ConnectAsync`:
a fragment is routed into `ProcessPacket` while a message is open or
before the first fragment, and is otherwise handed verbatim to the
payload callback.  (The `last_packet_time_` update is wall-clock state,
passed separately to the watchdog model.) -/
def handleNotification (s : CoreState) (data : List Nat) :
    CoreState × List Effect :=
  if 0 < s.total_expected_packets ∨ s.received_packet_count = 0 then
    ProcessPacket s data
  else (s, [Effect.payload data])

/-- Feed a sequence of notifications through the handler, collecting all
effects in order. -/
def runPackets : CoreState → List (List Nat) → CoreState × List Effect
  | s, [] => (s, [])
  | s, p :: ps =>
    let r1 := handleNotification s p
    let r2 := runPackets r1.1 ps
    (r2.1, r1.2 ++ r2.2)

/-- One iteration of the watchdog loop body in `StartWatchdog`, given the
elapsed milliseconds since the last fragment: `true` exactly when the
loop calls `FinishMessage` and returns.  The progress ratio the code
computes in `double` is modelled exactly in `ℚ`. -/
def watchdogFires (s : CoreState) (elapsedMs : Int) : Bool :=
  if 0 < s.total_expected_packets ∧ 60000 < elapsedMs then true
  else if 0 < s.total_expected_packets ∧ 2500 < elapsedMs then
    decide ((49 : ℚ) / 50 <
      (s.received_packet_count : ℚ) / (s.total_expected_packets : ℚ))
  else false

/-- One watchdog poll.  When a forcing condition holds the source calls
`FinishMessage` from the watchdog thread itself; the first statement of
`FinishMessage` is `StopWatchdog()`, which executes
`watchdog_thread_.join()` on that same thread.  A self-join throws
`std::system_error` and nothing catches it, so the process terminates
there: neither the payload handoff nor the counter reset in
`FinishMessage` is ever reached on this path (unlike the completion
path, where `FinishMessage` runs on a separate detached thread and the
join succeeds). -/
def watchdogPoll (s : CoreState) (elapsedMs : Int) :
    CoreState × List Effect :=
  if watchdogFires s elapsedMs then (s, [Effect.selfJoinTerminate])
  else (s, [])

/-- The payload deliveries among a list of effects, each with the delay
(in ms) after which the detached task fires (0 for a direct callback
invocation). -/
def deliveries (effs : List Effect) : List (Nat × List Nat) :=
  effs.filterMap fun e =>
    match e with
    | Effect.payload d => some (0, d)
    | Effect.delayedPayload t d => some (t, d)
    | _ => none

/-- Just the delivered byte buffers, in order. -/
def payloadEvents (effs : List Effect) : List (List Nat) :=
  (deliveries effs).map Prod.snd

/-! ### Address codec
`OnAdvertisementReceived` renders the 48-bit BLE address with
`std::hex` (lower case), `std::setfill('0')`, `std::setw(2)`, one octet
at a time from the most significant down, separated by `':'`.
`Connect` splits the string on `':'` with `std::getline` and folds each
token through `std::stoul(⋅, nullptr, 16)` into
`addr = (addr << 8) | byte` on a `uint64_t`.  Strings are modelled as
`List Char`. -/

/-- One lower-case hex digit as `std::hex` prints it. -/
def hexDigitChar (n : Nat) : Char :=
  if n < 10 then Char.ofNat (48 + n) else Char.ofNat (87 + n)

/-- A byte under `setw(2)`/`setfill('0')`: exactly two hex digits. -/
def toHexPair (b : Nat) : List Char :=
  [hexDigitChar (b / 16), hexDigitChar (b % 16)]

/-- Octet extraction `(addr >> (i * 8)) & 0xFF`. -/
def addrOctet (a : Nat) (i : Nat) : Nat := (a >>> (i * 8)) &&& 255

/-- The formatted address: octets 5 down to 0, colon-separated. -/
def formatAddress (a : Nat) : List Char :=
  toHexPair (addrOctet a 5) ++ ':' ::
   (toHexPair (addrOctet a 4) ++ ':' ::
    (toHexPair (addrOctet a 3) ++ ':' ::
     (toHexPair (addrOctet a 2) ++ ':' ::
      (toHexPair (addrOctet a 1) ++ ':' ::
       toHexPair (addrOctet a 0)))))

/-- Split into the delimiter-separated segments of a string (always at
least one segment, possibly empty). -/
def splitOnColon : List Char → List (List Char)
  | [] => [[]]
  | c :: rest =>
    if c = ':' then [] :: splitOnColon rest
    else
      match splitOnColon rest with
      | [] => [[c]]
      | t :: ts => (c :: t) :: ts

/-- The token sequence `while (std::getline(ss, byte_str, ':'))`
produces: the delimiter-separated segments, except that a final empty
segment yields no token (`getline` fails at end-of-stream having
extracted nothing, so a trailing `':'` or an empty input produces no
trailing empty token; interior empty segments are produced normally). -/
def getlineSplit (cs : List Char) : List (List Char) :=
  let segs := splitOnColon cs
  if segs.getLast? = some [] then segs.dropLast else segs

/-- Value of one hex digit, upper or lower case, as `std::stoul`
(base 16) accepts it. -/
def hexCharVal (c : Char) : Option Nat :=
  if '0' ≤ c ∧ c ≤ '9' then some (c.toNat - 48)
  else if 'a' ≤ c ∧ c ≤ 'f' then some (c.toNat - 87)
  else if 'A' ≤ c ∧ c ≤ 'F' then some (c.toNat - 55)
  else none

/-- Accumulate the maximal hex-digit run at the front of a token. -/
def stoulHexLoop : Nat → List Char → Nat
  | acc, [] => acc
  | acc, c :: cs =>
    match hexCharVal c with
    | some v => stoulHexLoop (acc * 16 + v) cs
    | none => acc

/-- Model of `std::stoul(tok, nullptr, 16)`: parses the maximal hex-digit run;
`none` models the `std::invalid_argument` exception thrown when the
token does not start with a hex digit.  (The optional whitespace/sign/
`0x` forms `stoul` also accepts never arise from the output of this codec and
are not modelled; no token long enough to overflow `unsigned long` is
produced either.) -/
def stoulHex : List Char → Option Nat
  | [] => none
  | c :: cs =>
    match hexCharVal c with
    | some _ => some (stoulHexLoop 0 (c :: cs))
    | none => none

/-- The fold in `Connect`: `addr = (addr << 8) | std::stoul(tok, 0, 16)`
on a `uint64_t`, aborted (exception) on a malformed token.  There is no
check on the number of tokens. -/
def parseAddrTokens : Nat → List (List Char) → Option Nat
  | acc, [] => some acc
  | acc, t :: ts =>
    match stoulHex t with
    | some b => parseAddrTokens (((acc <<< 8) ||| b) % 2 ^ 64) ts
    | none => none

/-- The address parsing performed by `PodBLECore::Connect` on the device
address string. -/
def connectParseAddress (text : List Char) : Option Nat :=
  parseAddrTokens 0 (getlineSplit text)

/-! ## Small step lemmas used throughout the proofs -/

theorem setPacketSize_received (s : CoreState) (p : List Nat) :
    (setPacketSize s p).received_packet_count = s.received_packet_count := by
  unfold setPacketSize; split <;> rfl

theorem setPacketSize_filtering (s : CoreState) (p : List Nat) :
    (setPacketSize s p).is_filtering = s.is_filtering := by
  unfold setPacketSize; split <;> rfl

theorem setPacketSize_buffer (s : CoreState) (p : List Nat) :
    (setPacketSize s p).payload_buffer = s.payload_buffer := by
  unfold setPacketSize; split <;> rfl

theorem setPacketSize_expected (s : CoreState) (p : List Nat) :
    (setPacketSize s p).total_expected_packets = s.total_expected_packets := by
  unfold setPacketSize; split <;> rfl

theorem accumulate_first (s : CoreState) (p : List Nat)
    (h : s.received_packet_count = 0) :
    accumulate s p =
      { s with current_message_type := p.getD 0 0 % 256
               total_expected_packets := parseExpected p
               payload_buffer := p.getD 0 0 % 256 :: p.drop 9
               received_packet_count := 1 } := by
  unfold accumulate; rw [if_pos h]

theorem accumulate_next (s : CoreState) (p : List Nat)
    (h : ¬ s.received_packet_count = 0) :
    accumulate s p =
      { s with payload_buffer := s.payload_buffer ++ p.drop 5
               received_packet_count := s.received_packet_count + 1 } := by
  unfold accumulate; rw [if_neg h]

theorem smartPeekStep_skip (s2 : CoreState) (h : s2.is_filtering = false) :
    smartPeekStep s2 = (s2, []) := by
  unfold smartPeekStep
  rw [if_neg]
  rintro ⟨hf, -⟩
  rw [h] at hf
  cases hf

theorem completeStep_skip (pk : CoreState × List Effect)
    (h : ¬ (0 < pk.1.total_expected_packets ∧
            pk.1.total_expected_packets ≤ pk.1.received_packet_count)) :
    completeStep pk = pk := by
  unfold completeStep; rw [if_neg h]

theorem completeStep_fire (pk : CoreState × List Effect)
    (h : 0 < pk.1.total_expected_packets ∧
         pk.1.total_expected_packets ≤ pk.1.received_packet_count) :
    completeStep pk = ((FinishMessage pk.1).1, pk.2 ++ (FinishMessage pk.1).2) := by
  unfold completeStep; rw [if_pos h]

/-- A first fragment (≥ 9 bytes, no filtering, completion not reached)
opens a message: the buffer becomes the type byte followed by bytes 9+,
the received count becomes 1, and no effect is emitted. -/
theorem ProcessPacket_first (s : CoreState) (p : List Nat)
    (hrec : s.received_packet_count = 0)
    (hfil : s.is_filtering = false)
    (hlen : 9 ≤ p.length)
    (hnofin : ¬ (0 < parseExpected p ∧ parseExpected p ≤ 1)) :
    (ProcessPacket s p).2 = [] ∧
    (ProcessPacket s p).1.payload_buffer = p.getD 0 0 % 256 :: p.drop 9 ∧
    (ProcessPacket s p).1.received_packet_count = 1 ∧
    (ProcessPacket s p).1.total_expected_packets = parseExpected p ∧
    (ProcessPacket s p).1.is_filtering = false ∧
    (ProcessPacket s p).1.current_message_type = p.getD 0 0 % 256 := by
  have hrec1 : (setPacketSize s p).received_packet_count = 0 := by
    rw [setPacketSize_received]; exact hrec
  unfold ProcessPacket
  rw [if_neg (by omega), if_neg (by rintro ⟨-, h⟩; omega),
    accumulate_first _ _ hrec1,
    smartPeekStep_skip _ (by
      show (setPacketSize s p).is_filtering = false
      rw [setPacketSize_filtering]; exact hfil),
    completeStep_skip _ (by rintro ⟨ha, hb⟩; exact hnofin ⟨ha, hb⟩)]
  refine ⟨rfl, rfl, rfl, rfl, ?_, rfl⟩
  show (setPacketSize s p).is_filtering = false
  rw [setPacketSize_filtering]; exact hfil

/-- A continuation fragment (≥ 5 bytes, no filtering, completion not
reached) appends bytes 5+ and increments the received count, with no
effect. -/
theorem ProcessPacket_continue (s : CoreState) (p : List Nat)
    (hrec : s.received_packet_count ≠ 0)
    (hfil : s.is_filtering = false)
    (hlen : 5 ≤ p.length)
    (hnofin : ¬ (0 < s.total_expected_packets ∧
                 s.total_expected_packets ≤ s.received_packet_count + 1)) :
    (ProcessPacket s p).2 = [] ∧
    (ProcessPacket s p).1.payload_buffer = s.payload_buffer ++ p.drop 5 ∧
    (ProcessPacket s p).1.received_packet_count =
      s.received_packet_count + 1 ∧
    (ProcessPacket s p).1.total_expected_packets =
      s.total_expected_packets ∧
    (ProcessPacket s p).1.is_filtering = false := by
  have hrec1 : ¬ (setPacketSize s p).received_packet_count = 0 := by
    rw [setPacketSize_received]; exact hrec
  unfold ProcessPacket
  rw [if_neg (by omega), if_neg (by rintro ⟨h0, -⟩; exact hrec1 h0),
    accumulate_next _ _ hrec1,
    smartPeekStep_skip _ (by
      show (setPacketSize s p).is_filtering = false
      rw [setPacketSize_filtering]; exact hfil),
    completeStep_skip _ (by
      rintro ⟨ha, hb⟩
      have ha2 : 0 < (setPacketSize s p).total_expected_packets := ha
      have hb2 : (setPacketSize s p).total_expected_packets ≤
          (setPacketSize s p).received_packet_count + 1 := hb
      rw [setPacketSize_expected] at ha2
      rw [setPacketSize_expected, setPacketSize_received] at hb2
      exact hnofin ⟨ha2, hb2⟩)]
  refine ⟨rfl, ?_, ?_, ?_, ?_⟩
  · show (setPacketSize s p).payload_buffer ++ p.drop 5 =
      s.payload_buffer ++ p.drop 5
    rw [setPacketSize_buffer]
  · show (setPacketSize s p).received_packet_count + 1 =
      s.received_packet_count + 1
    rw [setPacketSize_received]
  · show (setPacketSize s p).total_expected_packets =
      s.total_expected_packets
    rw [setPacketSize_expected]
  · show (setPacketSize s p).is_filtering = false
    rw [setPacketSize_filtering]; exact hfil

/-- The fragment that reaches the expected count finalizes the message:
the whole accumulated buffer (with bytes 5+ of this fragment appended) is
delivered once, after a watchdog stop, and the counters reset. -/
theorem ProcessPacket_finish (s : CoreState) (p : List Nat)
    (hrec : s.received_packet_count ≠ 0)
    (hfil : s.is_filtering = false)
    (hlen : 5 ≤ p.length)
    (hfin : 0 < s.total_expected_packets ∧
            s.total_expected_packets ≤ s.received_packet_count + 1) :
    (ProcessPacket s p).2 =
      [Effect.stopWatchdog,
       Effect.payload (s.payload_buffer ++ p.drop 5)] ∧
    (ProcessPacket s p).1.received_packet_count = 0 ∧
    (ProcessPacket s p).1.total_expected_packets = 0 ∧
    (ProcessPacket s p).1.payload_buffer = [] := by
  have hrec1 : ¬ (setPacketSize s p).received_packet_count = 0 := by
    rw [setPacketSize_received]; exact hrec
  have ha2 : 0 < (setPacketSize s p).total_expected_packets := by
    rw [setPacketSize_expected]; exact hfin.1
  have hb2 : (setPacketSize s p).total_expected_packets ≤
      (setPacketSize s p).received_packet_count + 1 := by
    rw [setPacketSize_expected, setPacketSize_received]; exact hfin.2
  unfold ProcessPacket
  rw [if_neg (by omega), if_neg (by rintro ⟨h0, -⟩; exact hrec1 h0),
    accumulate_next _ _ hrec1,
    smartPeekStep_skip _ (by
      show (setPacketSize s p).is_filtering = false
      rw [setPacketSize_filtering]; exact hfil),
    completeStep_fire _ ⟨ha2, hb2⟩]
  refine ⟨?_, rfl, rfl, rfl⟩
  show [] ++ [Effect.stopWatchdog,
    Effect.payload ((setPacketSize s p).payload_buffer ++ p.drop 5)] = _
  rw [List.nil_append, setPacketSize_buffer]

/-! ## Theorems -/

/-- C8: every call to `CancelDownload` produces exactly one payload
event, the single byte `0xDA`, scheduled 600 ms after the call (and no
other payload delivery), alongside the watchdog stop and the reset
command write. -/
theorem cancelDownload_exactly_one_skip (s : CoreState) :
    deliveries (CancelDownload s).2 = [(600, [0xDA])] ∧
    (CancelDownload s).2 =
      [Effect.stopWatchdog, Effect.writeCommand [0x08],
       Effect.delayedPayload 600 [0xDA]] :=
  ⟨rfl, rfl⟩

/-- A session state with an active time filter, as left by a
`DownloadFile(_, start > 0, end > 0, _, _)` call. -/
def filteringState : CoreState :=
  { initState with filter_start := 5, filter_end := 7, is_filtering := true }

/-- C7 counterexample: `Disconnect` does not reset the filter state —
`ResetDownloadState` never touches `filter_start_`, `filter_end_` or
`is_filtering_`, so a filter installed by a previous download survives
disconnection. -/
theorem disconnect_keeps_filter_cex :
    (Disconnect filteringState).1.is_filtering = true ∧
    (Disconnect filteringState).1.filter_start = 5 ∧
    (Disconnect filteringState).1.filter_end = 7 := by
  decide

/-- C7 (amended): `Disconnect` resets the received count, expected
count, inferred fragment size, Smart-Peek flag and payload buffer, but
preserves the filter bounds and the filtering flag. -/
theorem disconnect_resets_download_state (s : CoreState) :
    (Disconnect s).1 =
      { s with received_packet_count := 0
               total_expected_packets := 0
               actual_packet_size := 0
               is_smart_peek_done := false
               payload_buffer := [] } ∧
    (Disconnect s).1.filter_start = s.filter_start ∧
    (Disconnect s).1.filter_end = s.filter_end ∧
    (Disconnect s).1.is_filtering = s.is_filtering ∧
    (Disconnect s).2 = [Effect.stopWatchdog, Effect.status "Disconnected"] :=
  ⟨rfl, rfl, rfl, rfl, rfl⟩

/-- A message stuck one fragment short of completion, with partial
payload accumulated. -/
def stuckState : CoreState :=
  { initState with total_expected_packets := 100
                   received_packet_count := 99
                   payload_buffer := [1, 2, 3] }

/-- C3: the forcing conditions match the claim exactly — a watchdog poll
leaves the idle path precisely when a message is open (`expected > 0`)
and either the elapsed time exceeds 60 s, or it exceeds 2.5 s with
`received/expected > 0.98` — but on firing the source does not hand off
the accumulated payload: the watchdog thread self-joins inside
`StopWatchdog` (the first call of `FinishMessage`), `join` throws
`std::system_error`, and the process terminates before `on_payload_`
runs.  Evaluated at the failing input `expected = 100`, `received = 99`,
3000 ms elapsed: the poll fires, terminates, and delivers nothing
although the buffer is non-empty. -/
theorem watchdog_fire_self_join_terminates :
    (∀ (s : CoreState) (elapsedMs : Int),
      watchdogPoll s elapsedMs = (s, [Effect.selfJoinTerminate]) ↔
        (0 < s.total_expected_packets ∧
          (60000 < elapsedMs ∨
            (2500 < elapsedMs ∧
              (98 : ℚ) / 100 < (s.received_packet_count : ℚ) /
                (s.total_expected_packets : ℚ))))) ∧
    (watchdogPoll stuckState 3000 = (stuckState, [Effect.selfJoinTerminate]) ∧
     payloadEvents (watchdogPoll stuckState 3000).2 = [] ∧
     stuckState.payload_buffer ≠ []) := by
  have H : ∀ (s : CoreState) (elapsedMs : Int),
      watchdogPoll s elapsedMs = (s, [Effect.selfJoinTerminate]) ↔
        (0 < s.total_expected_packets ∧
          (60000 < elapsedMs ∨
            (2500 < elapsedMs ∧
              (98 : ℚ) / 100 < (s.received_packet_count : ℚ) /
                (s.total_expected_packets : ℚ)))) := by
    intro s elapsedMs
    have hfires : watchdogFires s elapsedMs = true ↔
        (0 < s.total_expected_packets ∧
          (60000 < elapsedMs ∨
            (2500 < elapsedMs ∧
              (98 : ℚ) / 100 < (s.received_packet_count : ℚ) /
                (s.total_expected_packets : ℚ)))) := by
      have h4950 : (49 : ℚ) / 50 = 98 / 100 := by norm_num
      unfold watchdogFires
      split_ifs with h1 h2
      · simp only [true_iff]
        exact ⟨h1.1, Or.inl h1.2⟩
      · rw [decide_eq_true_eq, h4950]
        constructor
        · intro h
          exact ⟨h2.1, Or.inr ⟨h2.2, h⟩⟩
        · rintro ⟨hp, h60 | ⟨h25, hq⟩⟩
          · exact absurd ⟨hp, h60⟩ h1
          · exact hq
      · simp only [Bool.false_eq_true, false_iff]
        rintro ⟨hp, h60 | ⟨h25, hq⟩⟩
        · exact h1 ⟨hp, h60⟩
        · exact h2 ⟨hp, h25⟩
    rw [← hfires]
    cases hb : watchdogFires s elapsedMs
    · simp [watchdogPoll, hb]
    · simp [watchdogPoll, hb]
  have hcond : 0 < stuckState.total_expected_packets ∧
      ((60000 : Int) < 3000 ∨
        ((2500 : Int) < 3000 ∧
          (98 : ℚ) / 100 < (stuckState.received_packet_count : ℚ) /
            (stuckState.total_expected_packets : ℚ))) := by
    refine ⟨by decide, Or.inr ⟨by decide, ?_⟩⟩
    norm_num [stuckState, initState]
  have hpoll := (H stuckState 3000).mpr hcond
  refine ⟨H, hpoll, ?_, by decide⟩
  rw [hpoll]
  rfl

/-- A state in the middle of accumulating an open 3-fragment message. -/
def accumState : CoreState :=
  { initState with received_packet_count := 1
                   total_expected_packets := 3
                   actual_packet_size := 20
                   current_message_type := 1
                   payload_buffer := [1, 2] }

/-- C5 counterexample: a 4-byte continuation fragment is dropped by the
minimum-size check — the received count is NOT incremented (the claim
asserts an increment for every fragment of size at most 5). -/
theorem short_continuation_cex :
    ([9, 9, 9, 9] : List Nat).length ≤ 5 ∧
    accumState.received_packet_count = 1 ∧
    ProcessPacket accumState [9, 9, 9, 9] = (accumState, []) := by
  decide

/-- C5 (amended): while a message is open, a continuation fragment of
exactly 5 bytes increments the received count by one and appends nothing
to the buffer, while a fragment smaller than 5 bytes is discarded
entirely (no increment, no append, no effect). -/
theorem continuation_fragment_sizes :
    (∀ (s : CoreState) (p : List Nat),
      s.received_packet_count ≠ 0 → p.length = 5 →
      accumulate s p =
        { s with received_packet_count := s.received_packet_count + 1 }) ∧
    (∀ (s : CoreState) (p : List Nat),
      p.length < 5 → ProcessPacket s p = (s, [])) := by
  constructor
  · intro s p hrec hlen
    unfold accumulate
    rw [if_neg hrec]
    have hdrop : p.drop 5 = [] := List.drop_eq_nil_of_le (le_of_eq hlen)
    rw [hdrop, List.append_nil]
  · intro s p hlen
    unfold ProcessPacket
    rw [if_pos hlen]

/-- C5 witness: the amended behaviour at concrete inputs. -/
theorem continuation_fragment_sizes_witness :
    accumulate accumState [1, 2, 3, 4, 5] =
      { accumState with received_packet_count := 2 } ∧
    ProcessPacket accumState [1, 2] = (accumState, []) := by
  constructor
  · rw [continuation_fragment_sizes.1 accumState [1, 2, 3, 4, 5]
      (by decide) rfl]
    decide
  · exact continuation_fragment_sizes.2 accumState [1, 2] (by decide)

/-- C4 counterexample: a first fragment whose bytes 5–8 decode to an
expected count of 0 is routed into `ProcessPacket`, absorbed into the
reassembly buffer, and never delivered — not "treated as a complete
standalone message and delivered immediately". -/
theorem zero_expected_first_fragment_cex :
    parseExpected [7, 0, 0, 0, 0, 0, 0, 0, 0] = 0 ∧
    (handleNotification initState [7, 0, 0, 0, 0, 0, 0, 0, 0]).2 = [] ∧
    (handleNotification initState
      [7, 0, 0, 0, 0, 0, 0, 0, 0]).1.payload_buffer = [7] := by
  decide

/-- C4 (amended): when the first fragment of a session parses an
expected count of 0, that fragment itself is absorbed into the buffer
without any delivery (the completion check `expected > 0` never fires),
and every subsequently received fragment bypasses the reassembler and is
handed verbatim and immediately to the payload callback. -/
theorem zero_expected_behavior :
    (∀ (s : CoreState) (p : List Nat),
      s.received_packet_count = 0 → s.is_filtering = false →
      9 ≤ p.length → parseExpected p = 0 →
      (handleNotification s p).2 = [] ∧
      (handleNotification s p).1.payload_buffer =
        p.getD 0 0 % 256 :: p.drop 9 ∧
      (handleNotification s p).1.received_packet_count = 1 ∧
      (handleNotification s p).1.total_expected_packets = 0) ∧
    (∀ (s : CoreState) (d : List Nat),
      s.total_expected_packets = 0 → s.received_packet_count ≠ 0 →
      handleNotification s d = (s, [Effect.payload d])) := by
  constructor
  · intro s p hrec hfil hlen hexp
    have h5 : ¬ p.length < 5 := by omega
    have h9 : ¬ ((setPacketSize s p).received_packet_count = 0 ∧
        p.length < 9) := by
      rintro ⟨-, h⟩; omega
    have hrec1 : (setPacketSize s p).received_packet_count = 0 := by
      rw [setPacketSize_received]; exact hrec
    unfold handleNotification
    rw [if_pos (Or.inr hrec)]
    unfold ProcessPacket
    rw [if_neg h5, if_neg h9, accumulate_first _ _ hrec1,
      smartPeekStep_skip _ (by
        show (setPacketSize s p).is_filtering = false
        rw [setPacketSize_filtering]; exact hfil),
      completeStep_skip _ (by
        rintro ⟨hpos, -⟩
        rw [show ({ setPacketSize s p with
              current_message_type := p.getD 0 0 % 256
              total_expected_packets := parseExpected p
              payload_buffer := p.getD 0 0 % 256 :: p.drop 9
              received_packet_count := 1
              } : CoreState).total_expected_packets = parseExpected p
            from rfl, hexp] at hpos
        exact absurd hpos (by norm_num))]
    exact ⟨rfl, rfl, rfl, hexp⟩
  · intro s d hexp hrec
    unfold handleNotification
    rw [if_neg (by
      rintro (h | h)
      · rw [hexp] at h; exact absurd h (by norm_num)
      · exact hrec h)]

/-- A state after the first (expected = 0) fragment has been consumed. -/
def zeroExpectedOpenState : CoreState :=
  { initState with received_packet_count := 1, payload_buffer := [7] }

/-- C4 witness: the amended behaviour at concrete inputs. -/
theorem zero_expected_behavior_witness :
    (handleNotification initState [7, 0, 0, 0, 0, 0, 0, 0, 0, 1]).2 = [] ∧
    handleNotification zeroExpectedOpenState [5, 6] =
      (zeroExpectedOpenState, [Effect.payload [5, 6]]) :=
  ⟨(zero_expected_behavior.1 initState [7, 0, 0, 0, 0, 0, 0, 0, 0, 1]
      rfl rfl (by decide) (by decide)).1,
   zero_expected_behavior.2 zeroExpectedOpenState [5, 6] rfl (by decide)⟩

/-- C6: the `Connect` address parser accepts a wrong token count
silently — `"aa:bb"` folds to `0xAABB` with no error of any kind — and a
non-hex token makes `std::stoul` throw `std::invalid_argument` (modelled
`none`), which no caller catches; there is no `InvalidAddressFormat`
error path anywhere in the source. -/
theorem connect_parse_no_format_error :
    connectParseAddress ['a', 'a', ':', 'b', 'b'] = some 0xAABB ∧
    connectParseAddress ['z', 'z'] = none := by
  decide

/-- C10: when Smart Peek decides to cancel, it runs literally
`CancelDownload`: watchdog stop, reset command `0x08`, download-state
reset (clearing the partially accumulated buffer), and the synthetic
`0xDA` skip payload 600 ms later — identical to a caller-initiated
cancellation. -/
theorem smart_peek_cancel_is_cancelDownload (s : CoreState)
    (hlen : 129 ≤ s.payload_buffer.length)
    (hc : smartPeekShouldCancel s) :
    PerformSmartPeek s = CancelDownload s ∧
    CancelDownload s =
      (ResetDownloadState s,
       [Effect.stopWatchdog, Effect.writeCommand [0x08],
        Effect.delayedPayload 600 [0xDA]]) ∧
    (ResetDownloadState s).payload_buffer = [] := by
  refine ⟨?_, rfl, rfl⟩
  unfold PerformSmartPeek
  rw [if_neg (by omega), if_pos hc]

/-- A filtered recording download whose estimated window lies entirely
before the filter window. -/
def peekCancelState : CoreState :=
  { initState with filter_start := 1
                   is_filtering := true
                   current_message_type := 3
                   payload_buffer := List.replicate 129 0
                   total_expected_packets := 5
                   received_packet_count := 1
                   actual_packet_size := 100 }

set_option maxRecDepth 8192 in
/-- C10 witness: the identity of the two cancellation paths at a
concrete state. -/
theorem smart_peek_cancel_is_cancelDownload_witness :
    PerformSmartPeek peekCancelState = CancelDownload peekCancelState :=
  (smart_peek_cancel_is_cancelDownload peekCancelState (by decide)
    (by decide)).1

/-- Invariant of the `SnapToStandardInterval` loop: the running minimum
only decreases, it ends below every candidate difference, and the final
pair is either the untouched start pair or a candidate together with its
own difference. -/
theorem snapFold_spec (raw : Int) (ts : List Int) :
    ∀ c m : Int,
      (ts.foldl (snapStep raw) (c, m)).2 ≤ m ∧
      (∀ t ∈ ts, (ts.foldl (snapStep raw) (c, m)).2 ≤ |raw - t|) ∧
      (ts.foldl (snapStep raw) (c, m) = (c, m) ∨
       ((ts.foldl (snapStep raw) (c, m)).1 ∈ ts ∧
        (ts.foldl (snapStep raw) (c, m)).2 =
          |raw - (ts.foldl (snapStep raw) (c, m)).1|)) := by
  induction ts with
  | nil =>
    intro c m
    exact ⟨le_refl _, by simp, Or.inl rfl⟩
  | cons t ts ih =>
    intro c m
    simp only [List.foldl_cons]
    have hstep : snapStep raw (c, m) t =
        if |raw - t| < m then (t, |raw - t|) else (c, m) := rfl
    rw [hstep]
    by_cases h : |raw - t| < m
    · rw [if_pos h]
      obtain ⟨ih1, ih2, ih3⟩ := ih t |raw - t|
      refine ⟨le_trans ih1 (le_of_lt h), ?_, ?_⟩
      · intro u hu
        rcases List.mem_cons.mp hu with rfl | hu
        · exact ih1
        · exact ih2 u hu
      · rcases ih3 with heq | ⟨hmem, hval⟩
        · right
          rw [heq]
          exact ⟨List.mem_cons_self t ts, rfl⟩
        · exact Or.inr ⟨List.mem_cons_of_mem t hmem, hval⟩
    · rw [if_neg h]
      obtain ⟨ih1, ih2, ih3⟩ := ih c m
      refine ⟨ih1, ?_, ?_⟩
      · intro u hu
        rcases List.mem_cons.mp hu with rfl | hu
        · exact le_trans ih1 (not_lt.mp h)
        · exact ih2 u hu
      · rcases ih3 with heq | ⟨hmem, hval⟩
        · exact Or.inl heq
        · exact Or.inr ⟨List.mem_cons_of_mem t hmem, hval⟩

/-- The function `SnapToStandardInterval` returns a standard interval of minimal
absolute difference, for any value in the `uint32_t` range the code can
feed it. -/
theorem snap_min_spec (raw : Int) (h0 : 0 ≤ raw) (h32 : raw < 2 ^ 32) :
    SnapToStandardInterval raw ∈ stdIntervals ∧
    ∀ t ∈ stdIntervals, |raw - SnapToStandardInterval raw| ≤ |raw - t| := by
  obtain ⟨h1, h2, h3⟩ := snapFold_spec raw stdIntervals 1000 (2 ^ 63 - 1)
  unfold SnapToStandardInterval
  rcases h3 with heq | ⟨hmem, hval⟩
  · exfalso
    have h100 : (2 : Int) ^ 63 - 1 ≤ |raw - 100| := by
      have := h2 100 (by decide)
      rw [heq] at this
      exact this
    have hsmall : |raw - 100| < 2 ^ 63 - 1 := by
      rw [abs_lt]
      constructor <;> nlinarith [h0, h32]
    exact absurd h100 (not_le.mpr hsmall)
  · refine ⟨hmem, fun t ht => ?_⟩
    rw [← hval]
    exact h2 t ht

/-- A filtered recording download whose parsed start time (2000-01-01)
exceeds a negative `filter_end`: under the nonzero-bound reading of the
intersection test stated by the claim a cancellation is demanded, but
the positive-bound test in the code does not cancel. -/
def negativeEndState : CoreState :=
  { initState with filter_start := 1
                   filter_end := -1
                   is_filtering := true
                   current_message_type := 3
                   payload_buffer :=
                     [0, 0, 0, 0, 0, 208, 7, 1, 1, 0, 0, 0] ++
                       List.replicate 117 0 }

set_option maxRecDepth 8192 in
/-- C2 counterexample: with `filter_end = -1` (nonzero) and a start time
beyond it, the estimated window `[start, start+duration]` does not
intersect `[filter_start, filter_end]` under the stated
"compare a bound when it is nonzero" rule, yet Smart Peek does not
cancel — the source only compares a bound when it is strictly
positive. -/
theorem smart_peek_nonzero_bound_cex :
    negativeEndState.filter_end ≠ 0 ∧
    negativeEndState.filter_end < smartPeekStartMs negativeEndState ∧
    129 ≤ negativeEndState.payload_buffer.length ∧
    (PerformSmartPeek negativeEndState).2 = [] := by
  decide

set_option maxRecDepth 8192 in
/-- C2 (amended): Smart Peek cancels iff the estimated window
`[start, start+duration]` misses the filter window, comparing a bound
only when it is (strictly) positive; `start` is the epoch-ms conversion
of the six-field timestamp at payload bytes 5–11, the duration is
`expected * max(fragment_size - 5, 59) / 64 * snapped_interval` in
truncating integer arithmetic, and the snapped interval is the member of
`{100, …, 1000}` with minimal absolute difference from the 32-bit
counter difference, the first minimal member winning ties. -/
theorem smart_peek_cancel_characterization :
    (∀ s : CoreState, 129 ≤ s.payload_buffer.length →
      ((PerformSmartPeek s).2 ≠ [] ↔
        ((0 < s.filter_end ∧ s.filter_end < smartPeekStartMs s) ∨
         (0 < s.filter_start ∧
           smartPeekStartMs s +
             (s.total_expected_packets *
               max (s.actual_packet_size - 5) 59).tdiv 64 *
               SnapToStandardInterval (smartPeekRawInterval s) <
             s.filter_start)))) ∧
    (∀ raw : Int, 0 ≤ raw → raw < 2 ^ 32 →
      SnapToStandardInterval raw ∈ stdIntervals ∧
      ∀ t ∈ stdIntervals,
        |raw - SnapToStandardInterval raw| ≤ |raw - t|) ∧
    (SnapToStandardInterval 150 = 100 ∧ SnapToStandardInterval 250 = 200 ∧
     SnapToStandardInterval 350 = 300 ∧ SnapToStandardInterval 450 = 400 ∧
     SnapToStandardInterval 550 = 500 ∧ SnapToStandardInterval 650 = 600 ∧
     SnapToStandardInterval 750 = 700 ∧ SnapToStandardInterval 850 = 800 ∧
     SnapToStandardInterval 950 = 900) := by
  refine ⟨?_, snap_min_spec, by decide⟩
  intro s hlen
  unfold PerformSmartPeek
  rw [if_neg (by omega)]
  by_cases hc : smartPeekShouldCancel s
  · rw [if_pos hc]
    exact ⟨fun _ => hc, fun _ => by simp [CancelDownload]⟩
  · rw [if_neg hc]
    exact ⟨fun h => absurd rfl h, fun hr => absurd hr hc⟩

/-- A filtered recording state for exercising the characterization. -/
def peekIffState : CoreState :=
  { initState with payload_buffer := List.replicate 129 0
                   filter_start := 1
                   filter_end := 2
                   is_filtering := true
                   current_message_type := 3 }

set_option maxRecDepth 8192 in
/-- C2 witness: the characterization applied at a concrete state and a
concrete raw interval. -/
theorem smart_peek_cancel_characterization_witness :
    ((PerformSmartPeek peekIffState).2 ≠ [] ↔
      ((0 < peekIffState.filter_end ∧
        peekIffState.filter_end < smartPeekStartMs peekIffState) ∨
       (0 < peekIffState.filter_start ∧
         smartPeekStartMs peekIffState +
           (peekIffState.total_expected_packets *
             max (peekIffState.actual_packet_size - 5) 59).tdiv 64 *
             SnapToStandardInterval (smartPeekRawInterval peekIffState) <
           peekIffState.filter_start))) ∧
    SnapToStandardInterval 437 ∈ stdIntervals :=
  ⟨smart_peek_cancel_characterization.1 peekIffState (by decide),
   (smart_peek_cancel_characterization.2.1 437 (by decide) (by decide)).1⟩

/-- C1: from a state with no open message and no filtering, a first
fragment of at least 9 bytes declaring an expected count of 3 followed
by two fragments of more than 5 bytes each produces exactly one payload
delivery, whose contents are the message-type byte (byte 0 of fragment
1) followed by the bytes of fragment 1 from offset 9, of fragment 2 from
offset 5, and of fragment 3 from offset 5. -/
theorem three_fragment_reassembly
    (s : CoreState) (f1 f2 f3 : List Nat)
    (hrec : s.received_packet_count = 0)
    (hfil : s.is_filtering = false)
    (hb : f1.getD 0 0 < 256)
    (h1 : 9 ≤ f1.length)
    (hexp : parseExpected f1 = 3)
    (h2 : 5 < f2.length) (h3 : 5 < f3.length) :
    payloadEvents (runPackets s [f1, f2, f3]).2 =
      [f1.getD 0 0 :: (f1.drop 9 ++ f2.drop 5 ++ f3.drop 5)] := by
  have hh1 : handleNotification s f1 = ProcessPacket s f1 := by
    unfold handleNotification
    rw [if_pos (Or.inr hrec)]
  obtain ⟨a2, abuf, arec, atot, afil, -⟩ :=
    ProcessPacket_first s f1 hrec hfil h1 (by rw [hexp]; decide)
  set q1 := ProcessPacket s f1 with hq1
  have hq1tot : (0 : Int) < q1.1.total_expected_packets := by
    rw [atot, hexp]; norm_num
  have hh2 : handleNotification q1.1 f2 = ProcessPacket q1.1 f2 := by
    unfold handleNotification
    rw [if_pos (Or.inl hq1tot)]
  obtain ⟨b2, bbuf, brec, btot, bfil⟩ :=
    ProcessPacket_continue q1.1 f2 (by rw [arec]; norm_num) afil
      (by omega) (by rw [atot, hexp, arec]; decide)
  set q2 := ProcessPacket q1.1 f2 with hq2
  have hq2tot : (0 : Int) < q2.1.total_expected_packets := by
    rw [btot, atot, hexp]; norm_num
  have hh3 : handleNotification q2.1 f3 = ProcessPacket q2.1 f3 := by
    unfold handleNotification
    rw [if_pos (Or.inl hq2tot)]
  obtain ⟨c2, -, -, -⟩ :=
    ProcessPacket_finish q2.1 f3 (by rw [brec, arec]; norm_num) bfil
      (by omega)
      ⟨hq2tot, by rw [btot, atot, hexp, brec, arec]; norm_num⟩
  simp only [runPackets]
  rw [hh1, hh2, hh3, a2, b2, c2, bbuf, abuf]
  simp only [payloadEvents, deliveries, List.nil_append, List.append_nil,
    List.filterMap, List.map]
  rw [Nat.mod_eq_of_lt hb]
  simp [List.append_assoc]

/-- C1 witness: the reassembly at concrete fragments. -/
theorem three_fragment_reassembly_witness :
    payloadEvents (runPackets initState
      [[7, 0, 0, 0, 0, 3, 0, 0, 0, 10, 11],
       [1, 2, 3, 4, 5, 20, 21],
       [9, 9, 9, 9, 9, 30, 31]]).2 = [[7, 10, 11, 20, 21, 30, 31]] := by
  rw [three_fragment_reassembly initState
    [7, 0, 0, 0, 0, 3, 0, 0, 0, 10, 11]
    [1, 2, 3, 4, 5, 20, 21]
    [9, 9, 9, 9, 9, 30, 31]
    rfl rfl (by decide) (by decide) (by decide) (by decide) (by decide)]
  decide

/-! ### Address codec lemmas -/

theorem hexDigitChar_ne_colon (n : Nat) (h : n < 16) :
    hexDigitChar n ≠ ':' := by
  have hall : ∀ i : Fin 16, hexDigitChar i.val ≠ ':' := by decide
  exact hall ⟨n, h⟩

theorem splitOnColon_ne_nil (cs : List Char) : splitOnColon cs ≠ [] := by
  induction cs with
  | nil => simp [splitOnColon]
  | cons c rest ih =>
    simp only [splitOnColon]
    split
    · simp
    · split
      · simp
      · simp

theorem splitOnColon_colonFree_append (t r : List Char) :
    (∀ c ∈ t, c ≠ ':') →
    splitOnColon (t ++ ':' :: r) = t :: splitOnColon r := by
  induction t with
  | nil =>
    intro _
    simp [splitOnColon]
  | cons c t ih =>
    intro ht
    have hc : c ≠ ':' := ht c (List.mem_cons_self c t)
    have ht2 : ∀ d ∈ t, d ≠ ':' :=
      fun d hd => ht d (List.mem_cons_of_mem c hd)
    show splitOnColon (c :: (t ++ ':' :: r)) = (c :: t) :: splitOnColon r
    simp only [splitOnColon]
    rw [if_neg hc, ih ht2]

theorem splitOnColon_colonFree (t : List Char) :
    (∀ c ∈ t, c ≠ ':') → splitOnColon t = [t] := by
  induction t with
  | nil => intro _; rfl
  | cons c t ih =>
    intro ht
    have hc : c ≠ ':' := ht c (List.mem_cons_self c t)
    have ht2 : ∀ d ∈ t, d ≠ ':' :=
      fun d hd => ht d (List.mem_cons_of_mem c hd)
    simp only [splitOnColon]
    rw [if_neg hc, ih ht2]

theorem getlineSplit_append (t r : List Char) (ht : ∀ c ∈ t, c ≠ ':') :
    getlineSplit (t ++ ':' :: r) = t :: getlineSplit r := by
  simp only [getlineSplit]
  rw [splitOnColon_colonFree_append t r ht]
  obtain ⟨s0, ss, hsr⟩ : ∃ s0 ss, splitOnColon r = s0 :: ss := by
    cases h : splitOnColon r with
    | nil => exact absurd h (splitOnColon_ne_nil r)
    | cons a l => exact ⟨a, l, rfl⟩
  rw [hsr, List.getLast?_cons_cons]
  split_ifs with h
  · rfl
  · rfl

theorem getlineSplit_single (t : List Char) (hne : t ≠ [])
    (ht : ∀ c ∈ t, c ≠ ':') : getlineSplit t = [t] := by
  simp only [getlineSplit]
  rw [splitOnColon_colonFree t ht]
  rw [if_neg (by simp [hne])]

theorem hexCharVal_hexDigitChar (n : Nat) (h : n < 16) :
    hexCharVal (hexDigitChar n) = some n := by
  have hall : ∀ i : Fin 16, hexCharVal (hexDigitChar i.val) = some i.val := by
    decide
  exact hall ⟨n, h⟩

theorem stoulHex_toHexPair (b : Nat) (hb : b < 256) :
    stoulHex (toHexPair b) = some b := by
  have e1 := hexCharVal_hexDigitChar (b / 16) (by omega)
  have e2 := hexCharVal_hexDigitChar (b % 16) (by omega)
  show stoulHex [hexDigitChar (b / 16), hexDigitChar (b % 16)] = some b
  simp only [stoulHex, stoulHexLoop, e1, e2]
  congr 1
  omega

theorem shiftLeft8_lor (x b : Nat) (hb : b < 256) :
    (x <<< 8) ||| b = x * 256 + b := by
  apply Nat.eq_of_testBit_eq
  intro i
  rw [Nat.testBit_lor, Nat.testBit_shiftLeft]
  have hx : x * 256 + b = 2 ^ 8 * x + b := by ring
  rw [hx, Nat.testBit_mul_pow_two_add x (show b < 2 ^ 8 by simpa using hb) i]
  by_cases hi : i < 8
  · have h8 : ¬ (8 ≤ i) := by omega
    simp [hi, h8]
  · have h8 : 8 ≤ i := by omega
    have hbf : b.testBit i = false := by
      apply Nat.testBit_eq_false_of_lt
      calc b < 256 := hb
        _ = 2 ^ 8 := by norm_num
        _ ≤ 2 ^ i := Nat.pow_le_pow_right (by norm_num) h8
    simp [hi, h8, hbf]

theorem addrOctet_lt (a i : Nat) : addrOctet a i < 256 := by
  have h := Nat.and_le_right (n := a >>> (i * 8)) (m := 255)
  unfold addrOctet
  omega

theorem addrOctet_eq (a i : Nat) : addrOctet a i = a / 2 ^ (i * 8) % 256 := by
  unfold addrOctet
  rw [Nat.shiftRight_eq_div_pow,
    show (255 : Nat) = 2 ^ 8 - 1 from by norm_num,
    Nat.and_pow_two_sub_one_eq_mod]

theorem parse_step (acc b : Nat) (hacc : acc < 2 ^ 56) (hb : b < 256) :
    ((acc <<< 8) ||| b) % 2 ^ 64 = acc * 256 + b := by
  rw [shiftLeft8_lor acc b hb]
  apply Nat.mod_eq_of_lt
  have h1 : (2 : Nat) ^ 56 * 256 = 2 ^ 64 := by norm_num
  have h2 : acc * 256 + b < 2 ^ 56 * 256 := by
    have h3 : acc + 1 ≤ 2 ^ 56 := hacc
    calc acc * 256 + b < (acc + 1) * 256 := by omega
      _ ≤ 2 ^ 56 * 256 := Nat.mul_le_mul_right 256 h3
  omega

/-- C9: formatting a 48-bit address (six zero-padded lower-case hex
octets, most significant first, colon-separated) and parsing it back
(split on `':'`, fold `acc = (acc << 8) | byte`) is the identity. -/
theorem parse_format_roundtrip (a : Nat) (ha : a < 2 ^ 48) :
    connectParseAddress (formatAddress a) = some a := by
  have hoct : ∀ i, addrOctet a i < 256 := addrOctet_lt a
  have hcf : ∀ i, ∀ c ∈ toHexPair (addrOctet a i), c ≠ ':' := by
    intro i c hc
    have h16 := hoct i
    simp only [toHexPair, List.mem_cons, List.not_mem_nil, or_false] at hc
    rcases hc with rfl | rfl
    · exact hexDigitChar_ne_colon _ (by omega)
    · exact hexDigitChar_ne_colon _ (by omega)
  have hsplit : getlineSplit (formatAddress a) =
      [toHexPair (addrOctet a 5), toHexPair (addrOctet a 4),
       toHexPair (addrOctet a 3), toHexPair (addrOctet a 2),
       toHexPair (addrOctet a 1), toHexPair (addrOctet a 0)] := by
    unfold formatAddress
    rw [getlineSplit_append _ _ (hcf 5), getlineSplit_append _ _ (hcf 4),
      getlineSplit_append _ _ (hcf 3), getlineSplit_append _ _ (hcf 2),
      getlineSplit_append _ _ (hcf 1),
      getlineSplit_single _ (by simp [toHexPair]) (hcf 0)]
  unfold connectParseAddress
  rw [hsplit]
  have e5 := stoulHex_toHexPair _ (hoct 5)
  have e4 := stoulHex_toHexPair _ (hoct 4)
  have e3 := stoulHex_toHexPair _ (hoct 3)
  have e2 := stoulHex_toHexPair _ (hoct 2)
  have e1 := stoulHex_toHexPair _ (hoct 1)
  have e0 := stoulHex_toHexPair _ (hoct 0)
  simp only [parseAddrTokens, e5, e4, e3, e2, e1, e0]
  have hp56 : (2 : Nat) ^ 56 = 72057594037927936 := by norm_num
  have ho5 := hoct 5
  have ho4 := hoct 4
  have ho3 := hoct 3
  have ho2 := hoct 2
  have ho1 := hoct 1
  have ho0 := hoct 0
  rw [parse_step 0 _ (by omega) (hoct 5)]
  rw [parse_step (0 * 256 + addrOctet a 5) _ (by omega) (hoct 4)]
  rw [parse_step ((0 * 256 + addrOctet a 5) * 256 + addrOctet a 4) _
    (by omega) (hoct 3)]
  rw [parse_step (((0 * 256 + addrOctet a 5) * 256 + addrOctet a 4) * 256 +
    addrOctet a 3) _ (by omega) (hoct 2)]
  rw [parse_step ((((0 * 256 + addrOctet a 5) * 256 + addrOctet a 4) * 256 +
    addrOctet a 3) * 256 + addrOctet a 2) _ (by omega) (hoct 1)]
  rw [parse_step (((((0 * 256 + addrOctet a 5) * 256 + addrOctet a 4) * 256 +
    addrOctet a 3) * 256 + addrOctet a 2) * 256 + addrOctet a 1) _
    (by omega) (hoct 0)]
  congr 1
  simp only [addrOctet_eq]
  norm_num
  omega

/-- C9 witness: the round trip at a concrete 48-bit address. -/
theorem parse_format_roundtrip_witness :
    (0x123456789ABC : Nat) < 2 ^ 48 ∧
    connectParseAddress (formatAddress 0x123456789ABC) =
      some 0x123456789ABC :=
  ⟨by norm_num, parse_format_roundtrip 0x123456789ABC (by norm_num)⟩

end PodBLE
